import Mathlib

/-!
A shallow embedding of the EvoSoup core: the two-dimensional virtual
machine of `src/vm/vm.go` and the population supervisor of
`src/state.go`.

Modelling conventions:
* Go's `int32`, `int16`, `int8` and `uint8` values are carried on `Int`,
  with every Go arithmetic operation that can overflow reduced through an
  explicit two's-complement normalisation (`wrap32`, `toInt16`, `toInt8`,
  `toUInt8`).  Go's truncated `%` and `/` on signed operands are
  `Int.tmod` and `Int.tdiv`; Go's arithmetic right shift by a constant is
  floor division, Lean's `/` on `Int`.
* The shared soup (`[]int8`) is a sized cell array; indexing it outside
  `[0, size)` is a Go run-time panic, surfaced here as `none`.
* The `steps` counter is a Go `int64` only ever incremented by one; its
  overflow is unreachable from any initial state and it is kept as a
  plain `Int`.
* `rand.Intn(4)` in `Step` is the `Fin 4` argument `d`; the supervisor's
  per-IP random draws are a `Nat → Fin 4` stream.
* The fields `SoupDimX`, `SoupDimY`, `Use32BitAddressing` and
  `UseRelativeAddressing` of `vm.IP` are never written by `Step`, so they
  are factored into an immutable `Config`.
-/

namespace EvoSoup

/-- Two's-complement reduction of an integer into `int32` range. -/
def wrap32 (v : Int) : Int := (v + 2147483648) % 4294967296 - 2147483648

/-- Two's-complement reduction into `int16` range (Go `int16(v)`). -/
def toInt16 (v : Int) : Int := (v + 32768) % 65536 - 32768

/-- Two's-complement reduction into `int8` range (Go `int8(v)`). -/
def toInt8 (v : Int) : Int := (v + 128) % 256 - 128

/-- Reduction into `uint8` range (Go `byte(v)`). -/
def toUInt8 (v : Int) : Int := v % 256

/-- Go `&` on `int8` operands, through the two's-complement byte. -/
def land8 (a b : Int) : Int :=
  toInt8 (Int.ofNat (Nat.land (a % 256).toNat (b % 256).toNat))

/-- Go `^` (binary xor) on `int8` operands. -/
def lxor8 (a b : Int) : Int :=
  toInt8 (Int.ofNat (Nat.xor (a % 256).toNat (b % 256).toNat))

/-- Go unary `^` (complement) on an `int8` operand. -/
def lnot8 (a : Int) : Int := toInt8 (255 - a % 256)

/-- `func (ip *IP) wrap(val, max int32) int32 { return (val%max + max) % max }`
(`src/vm/vm.go` lines 71-73).  The inner `%` is Go's truncated remainder;
the addition is an `int32` addition and can overflow, which Go defines as
two's-complement wrap-around. -/
def wrap (val max : Int) : Int := Int.tmod (wrap32 (Int.tmod val max + max)) max

/-- The soup arena: a Go `[]int8` of length `size`.  `data` is only
meaningful on `[0, size)`. -/
structure Soup where
  size : Int
  data : Int → Int

/-- Reading `soup[i]`; out of range is a Go panic, hence `none`. -/
def Soup.read (s : Soup) (i : Int) : Option Int :=
  if 0 ≤ i ∧ i < s.size then some (s.data i) else none

/-- Writing `soup[i] = v`; out of range is a Go panic, hence `none`. -/
def Soup.write (s : Soup) (i v : Int) : Option Soup :=
  if 0 ≤ i ∧ i < s.size then
    some ⟨s.size, fun j => if j = i then v else s.data j⟩
  else none

/-- The immutable per-IP configuration: `SoupDimX`, `SoupDimY`,
`Use32BitAddressing`, `UseRelativeAddressing` of `vm.IP`. -/
structure Config where
  dimX : Int
  dimY : Int
  use32 : Bool
  useRel : Bool

/-- The mutable part of a `vm.IP`: cursor, step counter and the shared
soup it references. -/
structure IP where
  x : Int
  y : Int
  steps : Int
  soup : Soup

/-- `func (ip *IP) to1D(x, y int32) int32` (`src/vm/vm.go` lines 75-77):
`wrap(y, DimY)*DimX + wrap(x, DimX)`, all in `int32` arithmetic. -/
def to1D (cfg : Config) (x y : Int) : Int :=
  wrap32 (wrap32 (wrap y cfg.dimY * cfg.dimX) + wrap x cfg.dimX)

/-- The `advanceFetch` closure of `Step`: increment `fetchX`, carry into
`fetchY` at the row end, and wrap `fetchY`. -/
def advanceFetch (cfg : Config) (f : Int × Int) : Int × Int :=
  let fx := wrap32 (f.1 + 1)
  if cfg.dimX ≤ fx then (0, wrap (wrap32 (f.2 + 1)) cfg.dimY)
  else (fx, wrap f.2 cfg.dimY)

/-- The `fetch8` closure: read the byte under the fetch cursor and
advance it. -/
def fetch8 (cfg : Config) (soup : Soup) (f : Int × Int) :
    Option (Int × (Int × Int)) := do
  let v ← soup.read (to1D cfg f.1 f.2)
  pure (v, advanceFetch cfg f)

/-- The `fetch32` closure: four `fetch8` bytes combined big-endian into a
signed 32-bit value. -/
def fetch32 (cfg : Config) (soup : Soup) (f : Int × Int) :
    Option (Int × (Int × Int)) := do
  let (v1, f) ← fetch8 cfg soup f
  let (v2, f) ← fetch8 cfg soup f
  let (v3, f) ← fetch8 cfg soup f
  let (v4, f) ← fetch8 cfg soup f
  pure (wrap32 (toUInt8 v1 * 16777216 + toUInt8 v2 * 65536 +
      toUInt8 v3 * 256 + toUInt8 v4), f)

/-- The `fetchImmediate` closure: a 32-bit or an 8-bit immediate
depending on the addressing-width flag. -/
def fetchImmediate (cfg : Config) (soup : Soup) (f : Int × Int) :
    Option (Int × (Int × Int)) :=
  if cfg.use32 then fetch32 cfg soup f else fetch8 cfg soup f

/-- The `resolveAddress` closure (`src/vm/vm.go` lines 141-165).  In
relative mode the offset is split into signed 16-bit halves (32-bit
width) or signed nibbles (8-bit width) and added to the base; in
absolute mode it is split into unsigned halves.  The result is the
linearised, wrapped index `to1D(finalX, finalY)`. -/
def resolveAddress (cfg : Config) (baseX baseY offset : Int) : Int :=
  if cfg.useRel then
    if cfg.use32 then
      let dx := toInt16 (offset % 65536)
      let dy := toInt16 (offset / 65536)
      to1D cfg (wrap32 (baseX + dx)) (wrap32 (baseY + dy))
    else
      let dx := toInt8 (toUInt8 offset * 16 % 256) / 16
      let dy := toInt8 offset / 16
      to1D cfg (wrap32 (baseX + dx)) (wrap32 (baseY + dy))
  else
    if cfg.use32 then
      to1D cfg (offset % 65536) (offset / 65536 % 65536)
    else
      to1D cfg (offset % 256) (offset / 256 % 256)

/-- The `switch srcType` computing the jump offset operand
(`src/vm/vm.go` lines 176-183).  Returns the operand together with the
fetch cursor left behind by any immediate fetches. -/
def jumpOffsetArg (cfg : Config) (soup : Soup) (locX locY : Int) (srcType : Int)
    (f1 : Int × Int) : Option (Int × (Int × Int)) :=
  if srcType = 0 then
    fetchImmediate cfg soup f1
  else if srcType = 1 then do
    let (imm, f2) ← fetchImmediate cfg soup f1
    let v ← soup.read (resolveAddress cfg locX locY imm)
    pure (v, f2)
  else if srcType = 2 then do
    let v ← soup.read (to1D cfg (wrap32 (locX - 1)) locY)
    pure (v, f1)
  else if srcType = 3 then do
    let v ← soup.read (to1D cfg (wrap32 (locX + 1)) locY)
    pure (v, f1)
  else pure (0, f1)

/-- The `switch srcType` computing the jump condition value
(`src/vm/vm.go` lines 187-194). -/
def jumpCondArg (cfg : Config) (soup : Soup) (locX locY : Int) (srcType : Int)
    (f2 : Int × Int) : Option Int :=
  if srcType = 0 then do
    let (v, _) ← fetch8 cfg soup f2
    pure v
  else if srcType = 1 then do
    let (imm, _) ← fetchImmediate cfg soup f2
    soup.read (resolveAddress cfg locX locY imm)
  else if srcType = 2 then
    soup.read (to1D cfg (wrap32 (locX - 1)) locY)
  else if srcType = 3 then
    soup.read (to1D cfg (wrap32 (locX + 1)) locY)
  else pure 0

/-- The `switch srcType` fetching the two ALU source operands
(`src/vm/vm.go` lines 211-229).  Returns `(src1Val, src2Val, src1Addr)`
where `src1Addr` is `-1` unless `srcType` is `TYPE_ADDR_FROM_IMMEDIATE`. -/
def aluSources (cfg : Config) (soup : Soup) (locX locY : Int) (srcType : Int)
    (f1 : Int × Int) : Option (Int × Int × Int) :=
  if srcType = 0 then do
    let v1 ← soup.read (to1D cfg locX (wrap32 (locY - 1)))
    let v2 ← soup.read (to1D cfg locX (wrap32 (locY + 1)))
    pure (v1, v2, (-1 : Int))
  else if srcType = 1 then do
    let (imm1, f2) ← fetchImmediate cfg soup f1
    let a1 := resolveAddress cfg locX locY imm1
    let v1 ← soup.read a1
    let (imm2, _) ← fetchImmediate cfg soup f2
    let v2 ← soup.read (resolveAddress cfg locX locY imm2)
    pure (v1, v2, a1)
  else if srcType = 2 then do
    let v1 ← soup.read (to1D cfg (wrap32 (locX - 1)) locY)
    let v2 ← soup.read (to1D cfg (wrap32 (locX + 1)) locY)
    pure (v1, v2, (-1 : Int))
  else if srcType = 3 then do
    let v1 ← soup.read (to1D cfg (wrap32 (locX + 1)) locY)
    let v2 ← soup.read (to1D cfg (wrap32 (locX - 1)) locY)
    pure (v1, v2, (-1 : Int))
  else pure (0, 0, (-1 : Int))

/-- The ALU proper (`src/vm/vm.go` lines 231-236): NAND, XOR or MOV on
the two `int8` operands.  `aluOp = 3` never reaches this switch. -/
def aluResult (aluOp src1Val src2Val : Int) : Int :=
  if aluOp = 0 then lnot8 (land8 src1Val src2Val)
  else if aluOp = 1 then lxor8 src1Val src2Val
  else if aluOp = 2 then src2Val
  else 0

/-- The `switch destType` writing the ALU result (`src/vm/vm.go` lines
238-249).  With `destType = 3` the write happens only when `src1Addr`
was set by the address-from-immediate source mode. -/
def destWrite (cfg : Config) (soup : Soup) (locX locY : Int)
    (destType src1Addr result : Int) : Option Soup :=
  if destType = 0 then soup.write (to1D cfg locX locY) result
  else if destType = 1 then soup.write (to1D cfg (wrap32 (locX - 1)) locY) result
  else if destType = 2 then soup.write (to1D cfg (wrap32 (locX + 1)) locY) result
  else if destType = 3 then
    (if src1Addr ≠ -1 then soup.write src1Addr result else pure soup)
  else pure soup

/-- The jump condition test (`src/vm/vm.go` lines 196-202): `destType`
is repurposed as the condition selector. -/
def jumpTakenTest (destType condVal : Int) : Bool :=
  if destType = 0 then decide (condVal = 0)
  else if destType = 1 then decide (condVal ≠ 0)
  else if destType = 2 then decide (0 < condVal)
  else if destType = 3 then decide (condVal < 0)
  else false

/-- The decode-and-execute phase of `func (ip *IP) Step()`
(`src/vm/vm.go` lines 167-250), given the already fetched rule byte;
the fetch cursor starts just past the rule.  Returns the cursor (after
a possible jump) and the soup (after a possible destination write). -/
def stepDecoded (cfg : Config) (ip : IP) (rule : Int) :
    Option (Int × Int × Soup) := do
  let locX := ip.x
  let locY := ip.y
  let ruleDigest := toUInt8 rule
  let f1 := advanceFetch cfg (ip.x, ip.y)
  let aluOp := ruleDigest / 64 % 4
  let srcType := ruleDigest / 16 % 4
  let destType := ruleDigest % 4
  if aluOp = 3 then
    let (offset, f2) ← jumpOffsetArg cfg ip.soup locX locY srcType f1
    let jumpIndex := resolveAddress cfg locX locY offset
    let condVal ← jumpCondArg cfg ip.soup locX locY srcType f2
    if jumpTakenTest destType condVal then
      pure (Int.tmod jumpIndex cfg.dimX, Int.tdiv jumpIndex cfg.dimX, ip.soup)
    else
      pure (locX, locY, ip.soup)
  else
    let (src1Val, src2Val, src1Addr) ← aluSources cfg ip.soup locX locY srcType f1
    let result := aluResult aluOp src1Val src2Val
    let soup1 ← destWrite cfg ip.soup locX locY destType src1Addr result
    pure (locX, locY, soup1)

/-- The fetch-decode-execute phase of `func (ip *IP) Step()`
(`src/vm/vm.go` lines 107-250), up to but excluding the final random
movement: read the rule byte under the cursor, then decode and
execute. -/
def stepExec (cfg : Config) (ip : IP) : Option (Int × Int × Soup) := do
  let rule ← ip.soup.read (to1D cfg ip.x ip.y)
  stepDecoded cfg ip rule

/-- `func (ip *IP) Step()` in full (`src/vm/vm.go` lines 107-266): the
fetch-decode-execute phase, then the unconditional random movement by
one of four unit offsets chosen by `rand.Intn(4)`, then the final wrap
of both coordinates and `Steps++`. -/
def IP.Step (cfg : Config) (ip : IP) (d : Fin 4) : Option IP :=
  match stepExec cfg ip with
  | none => none
  | some (x, y, soup) =>
    let m : Int × Int :=
      if d.val = 0 then (x, wrap32 (y - 1))
      else if d.val = 1 then (x, wrap32 (y + 1))
      else if d.val = 2 then (wrap32 (x - 1), y)
      else (wrap32 (x + 1), y)
    some { x := wrap m.1 cfg.dimX, y := wrap m.2 cfg.dimY,
           steps := ip.steps + 1, soup := soup }

/-- Dimension bounds under which every `int32` computation inside
`to1D` and `wrap` stays below the overflow threshold and every resolved
index fits the soup: positive dimensions, each at most `2^30`, product
at most `2^31 - 1`, soup at least `dimX * dimY` cells. -/
def ValidDims (cfg : Config) (size : Int) : Prop :=
  0 < cfg.dimX ∧ cfg.dimX ≤ 1073741824 ∧
  0 < cfg.dimY ∧ cfg.dimY ≤ 1073741824 ∧
  cfg.dimX * cfg.dimY ≤ 2147483647 ∧ cfg.dimX * cfg.dimY ≤ size

/-- `vm.SavableIP` (`src/vm/vm.go` lines 63-69). -/
structure SavableIP where
  id : Int
  x : Int
  y : Int
  steps : Int
  currentInstruction : Int

/-- The supervisor's view of one live `vm.IP`: the per-IP fields beside
the shared soup and the shared configuration. -/
structure IPRec where
  id : Int
  x : Int
  y : Int
  steps : Int

/-- `SimulationState` (`src/main.go` lines 42-49). -/
structure SimulationState where
  generation : Int
  soup : Soup
  ips : List SavableIP
  nextIPID : Int
  randSeed : Int

/-- The fields of `AppState` (`src/state.go` lines 345-372) that the
snapshot and pause/resume/step operations touch.  The `ipStopChan`
channel is modelled by a generation counter (which `make` increments)
and a closed flag; the joined worker goroutines by `workersRunning`. -/
structure AppState where
  soup : Soup
  population : List IPRec
  nextIPID : Int
  randSeed : Int
  generation : Int
  paused : Bool
  stopChanGen : Nat
  stopChanClosed : Bool
  workersRunning : Bool

/-- `func (ip *IP) CurrentState() SavableIP` (`src/vm/vm.go` lines
80-89): the saved entry carries the coordinates, the step counter and
the instruction byte under the cursor. -/
def currentState (cfg : Config) (soup : Soup) (ip : IPRec) : Option SavableIP := do
  let v ← soup.read (to1D cfg ip.x ip.y)
  pure ⟨ip.id, ip.x, ip.y, ip.steps, v⟩

/-- `vm.NewIP` (`src/vm/vm.go` lines 92-104) as seen by the supervisor:
the `Steps` field is not in the composite literal, so a rebuilt IP
starts at Go's zero value `0`. -/
def NewIPRec (id x y : Int) : IPRec := ⟨id, x, y, 0⟩

/-- `saveSnapshot` (`src/state.go` lines 428-454) up to the gob
encoding: collect `CurrentState` of every live IP and build the
`SimulationState` composite literal.  That literal sets `Generation`,
`Soup`, `IPs` and `RandSeed` only; `NextIPID` is left at Go's zero
value `0`. -/
def saveSnapshot (cfg : Config) (s : AppState) : Option SimulationState := do
  let ips ← s.population.mapM (currentState cfg s.soup)
  pure { generation := s.generation, soup := s.soup, ips := ips,
         nextIPID := 0, randSeed := s.randSeed }

/-- `loadSnapshot` (`src/state.go` lines 392-425) after a successful
gob decode: install the decoded generation, soup, next-id and seed,
clear the population, and rebuild one `NewIP` per saved entry.  The
soup is replaced wholesale; its length is never compared with the
running soup's. -/
def loadSnapshot (s : AppState) (state : SimulationState) : AppState :=
  { s with generation := state.generation, soup := state.soup,
           nextIPID := state.nextIPID, randSeed := state.randSeed,
           population := state.ips.map (fun sip => NewIPRec sip.id sip.x sip.y) }

/-- `func (s *AppState) Pause()` (`src/state.go` lines 527-542): a
compare-and-swap of the paused flag from running to paused; only on a
successful swap is the stop channel closed and are the workers joined. -/
def AppState.Pause (s : AppState) : AppState :=
  if s.paused = false then
    { s with paused := true, stopChanClosed := true, workersRunning := false }
  else s

/-- `func (s *AppState) Resume()` (`src/state.go` lines 544-553): a
compare-and-swap of the paused flag from paused to running; only on a
successful swap is a fresh stop channel made and a worker per IP
relaunched. -/
def AppState.Resume (s : AppState) : AppState :=
  if s.paused = true then
    { s with paused := false, stopChanGen := s.stopChanGen + 1,
             stopChanClosed := false, workersRunning := true }
  else s

/-- The `population.Range` body of the supervisor's `Step`: one
`vm.Step` per live IP, threading the shared soup; `dirs` supplies each
call's `rand.Intn(4)` draw. -/
def stepAll (cfg : Config) (dirs : Nat → Fin 4) :
    Nat → Soup → List IPRec → Option (Soup × List IPRec)
  | _, soup, [] => some (soup, [])
  | i, soup, ip :: rest => do
      let st ← IP.Step cfg ⟨ip.x, ip.y, ip.steps, soup⟩ (dirs i)
      let (soup1, rest1) ← stepAll cfg dirs (i + 1) st.soup rest
      pure (soup1, ⟨ip.id, st.x, st.y, st.steps⟩ :: rest1)

/-- `func (s *AppState) Step()` (`src/state.go` lines 556-573): when
the paused flag is set, run exactly one `vm.Step` on every live IP and
stay paused; otherwise only log that the command was ignored. -/
def AppState.Step (cfg : Config) (dirs : Nat → Fin 4) (s : AppState) :
    Option AppState :=
  if s.paused = true then
    match stepAll cfg dirs 0 s.soup s.population with
    | none => none
    | some (soup1, pop1) => some { s with soup := soup1, population := pop1 }
  else some s

/-- Modelled from the spec (§4.4, the 8-bit relative row of the
address-resolution table): `fx = bx + sign_extend_8(o & 0xFF)`,
`fy = by + 0`, both then wrapped.  Follows the spec's words, for
comparison with the implemented `resolveAddress`. -/
def resolveAddressSpec8Rel (cfg : Config) (baseX baseY offset : Int) : Int :=
  to1D cfg (wrap32 (baseX + toInt8 (offset % 256))) baseY

/-- Sign extension of a 4-bit nibble `n ∈ [0, 16)` to a signed value in
`[-8, 8)`. -/
def sext4 (n : Int) : Int := if n < 8 then n else n - 16

/-- A 3-by-3 torus in the default addressing mode (8-bit, relative). -/
def cfgSmall : Config := ⟨3, 3, false, true⟩

/-- A 9-cell soup holding byte 3 everywhere: rule `aluOp = 0`
(`NAND`), `srcType = 0`, `destType = 3` (write to src1 address, which
is unset in this source mode). -/
def soupConst3 : Soup := ⟨9, fun _ => 3⟩

/-- An IP at the centre of the 3-by-3 torus. -/
def ipCenter : IP := ⟨1, 1, 0, soupConst3⟩

/-- A degenerate configuration allowed by `DIM_X > 0`, `DIM_Y > 0`:
`DIM_X = 2^31 - 1`, one row. -/
def cfgHuge : Config := ⟨2147483647, 1, false, true⟩

/-- A `2^31 - 1`-cell soup of zero bytes, matching `cfgHuge`. -/
def soupHuge : Soup := ⟨2147483647, fun _ => 0⟩

/-- An IP at the origin of the huge one-row soup. -/
def ipHugeOrigin : IP := ⟨0, 0, 0, soupHuge⟩

/-- An IP at the in-range cursor `(5, 0)` of the huge one-row soup. -/
def ipHugeFive : IP := ⟨5, 0, 0, soupHuge⟩

/-- The spec's 8-by-8 scenario torus, 8-bit relative addressing. -/
def cfg8x8 : Config := ⟨8, 8, false, true⟩

/-- A 2-by-2 torus in the default addressing mode. -/
def cfg2x2 : Config := ⟨2, 2, false, true⟩

/-- A 4-cell all-zero soup matching `cfg2x2`. -/
def soup4 : Soup := ⟨4, fun _ => 0⟩

/-- A paused supervisor state over the 4-cell soup with one live IP
whose step counter is 5, and a nonzero next-IP id. -/
def appSmall : AppState :=
  ⟨soup4, [⟨1, 0, 0, 5⟩], 1, 3, 7, true, 0, false, false⟩

/-- The one-IP supervisor state after one gated step: the write lands
at index 0 (value `-1`, the NAND of two zero bytes) and the IP walks
from `(0, 0)` to `(0, 1)` under draw 0. -/
def appSmallStepped : AppState :=
  ⟨⟨4, fun j => if j = 0 then -1 else 0⟩, [⟨1, 0, 1, 6⟩], 1, 3, 7,
   true, 0, false, false⟩

/-- A running (not paused) supervisor state with no live IPs. -/
def appRunning : AppState :=
  ⟨soup4, [], 0, 0, 0, false, 0, false, true⟩

/-- A decoded snapshot whose 3-cell soup cannot match the running
4-cell soup. -/
def snapMismatch : SimulationState :=
  ⟨11, ⟨3, fun _ => 1⟩, [⟨2, 1, 0, 9, 1⟩], 4, 13⟩

section Lemmas

/-- `wrap32` is the identity on values already in `int32` range. -/
lemma wrap32_eq_self (z : Int) (h1 : -2147483648 <= z) (h2 : z < 2147483648) :
    wrap32 z = z := by
  unfold wrap32; omega

/-- Lower bound of Go's truncated remainder by a positive modulus. -/
lemma neg_lt_tmod (a : Int) {b : Int} (h : 0 < b) : -b < Int.tmod a b := by
  rcases a with m | m
  · have h0 : (0 : Int) <= Int.tmod (Int.ofNat m) b :=
      Int.tmod_nonneg b (Int.ofNat_zero_le m)
    omega
  · obtain ⟨n, rfl⟩ := Int.eq_ofNat_of_zero_le h.le
    have hn : 0 < n := by exact_mod_cast h
    have hlt : Nat.succ m % n < n := Nat.mod_lt _ hn
    have heq : Int.tmod (Int.negSucc m) (n : Int) =
        -((Nat.succ m % n : Nat) : Int) := rfl
    rw [heq]
    omega

/-- The truncated remainder agrees with the Euclidean one modulo `b`. -/
lemma tmod_emod_self (a b : Int) : Int.tmod a b % b = a % b := by
  conv_rhs => rw [← Int.tdiv_add_tmod a b]
  rw [Int.add_comm, Int.add_mul_emod_self_left]

/-- When the `int32` addition inside `wrap` does not overflow, `wrap`
is the mathematical (Euclidean) modulo. -/
lemma wrap_eq_emod {v M : Int} (h1 : 0 < M)
    (h2 : Int.tmod v M + M < 2147483648) : wrap v M = v % M := by
  have ht1 : Int.tmod v M < M := Int.tmod_lt_of_pos v h1
  have ht2 : -M < Int.tmod v M := neg_lt_tmod v h1
  unfold wrap
  rw [wrap32_eq_self _ (by omega) h2,
    Int.tmod_eq_emod (by omega) h1.le,
    show Int.tmod v M + M = Int.tmod v M + M * 1 by ring,
    Int.add_mul_emod_self_left]
  exact tmod_emod_self v M

/-- For moduli up to `2^30` the addition in `wrap` can never overflow. -/
lemma wrap_eq_emod_of_le (v : Int) {M : Int} (h1 : 0 < M)
    (h2 : M <= 1073741824) : wrap v M = v % M :=
  wrap_eq_emod h1 (by have := Int.tmod_lt_of_pos v h1; omega)

/-- For moduli up to `2^30`, `wrap` lands in `[0, M)`. -/
lemma wrap_bounds (v : Int) {M : Int} (h1 : 0 < M) (h2 : M <= 1073741824) :
    0 <= wrap v M ∧ wrap v M < M := by
  rw [wrap_eq_emod_of_le v h1 h2]
  exact ⟨Int.emod_nonneg v (by omega), Int.emod_lt_of_pos v h1⟩

/-- Under valid dimensions, `to1D` is the usual row-major index and
falls inside the soup. -/
lemma to1D_bounds {cfg : Config} {size : Int} (h : ValidDims cfg size)
    (x y : Int) : 0 <= to1D cfg x y ∧ to1D cfg x y < size := by
  obtain ⟨h1, h2, h3, h4, h5, h6⟩ := h
  have hry := wrap_eq_emod_of_le y h3 h4
  have hrx := wrap_eq_emod_of_le x h1 h2
  have hy0 : 0 <= y % cfg.dimY := Int.emod_nonneg y (by omega)
  have hy1 : y % cfg.dimY < cfg.dimY := Int.emod_lt_of_pos y h3
  have hx0 : 0 <= x % cfg.dimX := Int.emod_nonneg x (by omega)
  have hx1 : x % cfg.dimX < cfg.dimX := Int.emod_lt_of_pos x h1
  have hmul : y % cfg.dimY * cfg.dimX <= (cfg.dimY - 1) * cfg.dimX :=
    mul_le_mul_of_nonneg_right (by omega) (by omega)
  have hmul0 : 0 <= y % cfg.dimY * cfg.dimX := mul_nonneg hy0 (by omega)
  have hexp : (cfg.dimY - 1) * cfg.dimX = cfg.dimX * cfg.dimY - cfg.dimX := by
    ring
  have hin : wrap32 (y % cfg.dimY * cfg.dimX) = y % cfg.dimY * cfg.dimX :=
    wrap32_eq_self _ (by omega) (by omega)
  unfold to1D
  rw [hry, hrx, hin, wrap32_eq_self _ (by omega) (by omega)]
  omega

/-- Under valid dimensions every read through `to1D` is in bounds. -/
lemma read_to1D {cfg : Config} {soup : Soup} (h : ValidDims cfg soup.size)
    (x y : Int) :
    soup.read (to1D cfg x y) = some (soup.data (to1D cfg x y)) := by
  unfold Soup.read
  rw [if_pos (to1D_bounds h x y)]

/-- Under valid dimensions every write through `to1D` is in bounds and
preserves the soup size. -/
lemma write_to1D {cfg : Config} {soup : Soup} (h : ValidDims cfg soup.size)
    (x y v : Int) :
    soup.write (to1D cfg x y) v =
      some ⟨soup.size, fun j => if j = to1D cfg x y then v else soup.data j⟩ := by
  unfold Soup.write
  rw [if_pos (to1D_bounds h x y)]

/-- `resolveAddress` always returns a wrapped 2D index. -/
lemma resolveAddress_eq_to1D (cfg : Config) (baseX baseY offset : Int) :
    ∃ a b, resolveAddress cfg baseX baseY offset = to1D cfg a b := by
  unfold resolveAddress
  split <;> split <;> exact ⟨_, _, rfl⟩

/-- Reading at a resolved address succeeds under valid dimensions. -/
lemma read_resolve {cfg : Config} {soup : Soup} (h : ValidDims cfg soup.size)
    (baseX baseY offset : Int) :
    ∃ v, soup.read (resolveAddress cfg baseX baseY offset) = some v := by
  obtain ⟨a, b, hab⟩ := resolveAddress_eq_to1D cfg baseX baseY offset
  exact ⟨_, by rw [hab, read_to1D h]⟩

/-- A resolved address is in soup bounds under valid dimensions. -/
lemma resolveAddress_bounds {cfg : Config} {size : Int} (h : ValidDims cfg size)
    (baseX baseY offset : Int) :
    0 <= resolveAddress cfg baseX baseY offset ∧
    resolveAddress cfg baseX baseY offset < size := by
  obtain ⟨a, b, hab⟩ := resolveAddress_eq_to1D cfg baseX baseY offset
  rw [hab]
  exact to1D_bounds h a b

/-- `fetch8` always succeeds under valid dimensions. -/
lemma fetch8_eq {cfg : Config} {soup : Soup} (h : ValidDims cfg soup.size)
    (f : Int × Int) :
    fetch8 cfg soup f =
      some (soup.data (to1D cfg f.1 f.2), advanceFetch cfg f) := by
  unfold fetch8
  rw [read_to1D h]
  rfl

/-- `fetch32` always succeeds under valid dimensions. -/
lemma fetch32_eq {cfg : Config} {soup : Soup} (h : ValidDims cfg soup.size)
    (f : Int × Int) : ∃ v f2, fetch32 cfg soup f = some (v, f2) := by
  unfold fetch32
  simp only [fetch8_eq h, Option.bind_eq_bind, Option.some_bind]
  exact ⟨_, _, rfl⟩

/-- `fetchImmediate` always succeeds under valid dimensions. -/
lemma fetchImmediate_eq {cfg : Config} {soup : Soup}
    (h : ValidDims cfg soup.size) (f : Int × Int) :
    ∃ v f2, fetchImmediate cfg soup f = some (v, f2) := by
  unfold fetchImmediate
  split
  · exact fetch32_eq h f
  · exact ⟨_, _, fetch8_eq h f⟩

/-- The jump offset operand always resolves under valid dimensions. -/
lemma jumpOffsetArg_isSome {cfg : Config} {soup : Soup}
    (h : ValidDims cfg soup.size) (locX locY srcType : Int) (f1 : Int × Int) :
    ∃ v f2, jumpOffsetArg cfg soup locX locY srcType f1 = some (v, f2) := by
  unfold jumpOffsetArg
  split
  · exact fetchImmediate_eq h f1
  split
  · obtain ⟨imm, f2, himm⟩ := fetchImmediate_eq h f1
    obtain ⟨v, hv⟩ := read_resolve h locX locY imm
    rw [himm]
    simp only [Option.bind_eq_bind, Option.some_bind, hv]
    exact ⟨_, _, rfl⟩
  split
  · rw [read_to1D h]; exact ⟨_, _, rfl⟩
  split
  · rw [read_to1D h]; exact ⟨_, _, rfl⟩
  · exact ⟨_, _, rfl⟩

/-- The jump condition operand always resolves under valid dimensions. -/
lemma jumpCondArg_isSome {cfg : Config} {soup : Soup}
    (h : ValidDims cfg soup.size) (locX locY srcType : Int) (f2 : Int × Int) :
    ∃ v, jumpCondArg cfg soup locX locY srcType f2 = some v := by
  unfold jumpCondArg
  split
  · rw [fetch8_eq h]; exact ⟨_, rfl⟩
  split
  · obtain ⟨imm, f3, himm⟩ := fetchImmediate_eq h f2
    obtain ⟨v, hv⟩ := read_resolve h locX locY imm
    rw [himm]
    simp only [Option.bind_eq_bind, Option.some_bind, hv]
    exact ⟨_, rfl⟩
  split
  · exact ⟨_, read_to1D h _ _⟩
  split
  · exact ⟨_, read_to1D h _ _⟩
  · exact ⟨_, rfl⟩

/-- The ALU source fetch always succeeds under valid dimensions;
`src1Addr` is `-1` outside the address-from-immediate mode and is
otherwise a resolved in-bounds address. -/
lemma aluSources_spec {cfg : Config} {soup : Soup}
    (h : ValidDims cfg soup.size) (locX locY srcType : Int) (f1 : Int × Int) :
    ∃ v1 v2 a, aluSources cfg soup locX locY srcType f1 = some (v1, v2, a) ∧
      (srcType = 1 ∨ a = -1) ∧
      (a = -1 ∨ (0 <= a ∧ a < soup.size)) := by
  unfold aluSources
  split
  · rw [read_to1D h]
    simp only [Option.bind_eq_bind, Option.some_bind]
    rw [read_to1D h]
    exact ⟨_, _, _, rfl, Or.inr rfl, Or.inl rfl⟩
  rename_i hs0
  split
  · rename_i hs1
    obtain ⟨imm1, f2, himm1⟩ := fetchImmediate_eq h f1
    obtain ⟨v1, hv1⟩ := read_resolve h locX locY imm1
    rw [himm1]
    simp only [Option.bind_eq_bind, Option.some_bind, hv1]
    obtain ⟨imm2, f3, himm2⟩ := fetchImmediate_eq h f2
    rw [himm2]
    simp only [Option.some_bind]
    obtain ⟨v2, hv2⟩ := read_resolve h locX locY imm2
    rw [hv2]
    simp only [Option.some_bind]
    exact ⟨_, _, _, rfl, Or.inl hs1,
      Or.inr (resolveAddress_bounds h locX locY imm1)⟩
  split
  · rw [read_to1D h]
    simp only [Option.bind_eq_bind, Option.some_bind]
    rw [read_to1D h]
    exact ⟨_, _, _, rfl, Or.inr rfl, Or.inl rfl⟩
  split
  · rw [read_to1D h]
    simp only [Option.bind_eq_bind, Option.some_bind]
    rw [read_to1D h]
    exact ⟨_, _, _, rfl, Or.inr rfl, Or.inl rfl⟩
  · exact ⟨_, _, _, rfl, Or.inr rfl, Or.inl rfl⟩

/-- The destination write always succeeds under valid dimensions when
`src1Addr` is either unset or in bounds, and it preserves the size. -/
lemma destWrite_isSome {cfg : Config} {soup : Soup}
    (h : ValidDims cfg soup.size) (locX locY destType a result : Int)
    (ha : a = -1 ∨ (0 <= a ∧ a < soup.size)) :
    ∃ t, destWrite cfg soup locX locY destType a result = some t ∧
      t.size = soup.size := by
  unfold destWrite
  split
  · rw [write_to1D h]; exact ⟨_, rfl, rfl⟩
  split
  · rw [write_to1D h]; exact ⟨_, rfl, rfl⟩
  split
  · rw [write_to1D h]; exact ⟨_, rfl, rfl⟩
  split
  · split
    · rename_i hne
      rcases ha with ha | ha
      · exact absurd ha hne
      · unfold Soup.write
        rw [if_pos ha]
        exact ⟨_, rfl, rfl⟩
    · exact ⟨_, rfl, rfl⟩
  · exact ⟨_, rfl, rfl⟩

/-- The decode-and-execute phase always completes under valid
dimensions, and the soup size is preserved. -/
lemma stepDecoded_isSome {cfg : Config} {ip : IP}
    (h : ValidDims cfg ip.soup.size) (rule : Int) :
    ∃ x y s1, stepDecoded cfg ip rule = some (x, y, s1) ∧
      s1.size = ip.soup.size := by
  unfold stepDecoded
  dsimp only
  split
  · obtain ⟨off, f2, hoff⟩ := jumpOffsetArg_isSome h ip.x ip.y
      (toUInt8 rule / 16 % 4) (advanceFetch cfg (ip.x, ip.y))
    rw [hoff]
    simp only [Option.bind_eq_bind, Option.some_bind]
    obtain ⟨cv, hcv⟩ := jumpCondArg_isSome h ip.x ip.y
      (toUInt8 rule / 16 % 4) f2
    rw [hcv]
    simp only [Option.some_bind]
    split
    · exact ⟨_, _, _, rfl, rfl⟩
    · exact ⟨_, _, _, rfl, rfl⟩
  · obtain ⟨v1, v2, a, hsrc, _, hbound⟩ := aluSources_spec h ip.x ip.y
      (toUInt8 rule / 16 % 4) (advanceFetch cfg (ip.x, ip.y))
    rw [hsrc]
    simp only [Option.bind_eq_bind, Option.some_bind]
    obtain ⟨t, hw, hts⟩ := destWrite_isSome h ip.x ip.y
      (toUInt8 rule % 4) a (aluResult (toUInt8 rule / 64 % 4) v1 v2) hbound
    rw [hw]
    simp only [Option.some_bind]
    exact ⟨_, _, _, rfl, hts⟩

/-- The fetch-decode-execute phase always completes under valid
dimensions, and the soup size is preserved. -/
lemma stepExec_isSome {cfg : Config} {ip : IP}
    (h : ValidDims cfg ip.soup.size) :
    ∃ x y s1, stepExec cfg ip = some (x, y, s1) ∧ s1.size = ip.soup.size := by
  unfold stepExec
  rw [read_to1D h]
  simp only [Option.bind_eq_bind, Option.some_bind]
  exact stepDecoded_isSome h _
/-- Outside the address-from-immediate source mode, `aluSources` leaves
`src1Addr` at its initial `-1`. -/
lemma aluSources_srcAddr {cfg : Config} {soup : Soup}
    {locX locY srcType : Int} {f1 : Int × Int} {v1 v2 a : Int}
    (hs : srcType ≠ 1)
    (h : aluSources cfg soup locX locY srcType f1 = some (v1, v2, a)) :
    a = -1 := by
  unfold aluSources at h
  split at h
  · simp only [Option.bind_eq_bind, Option.bind_eq_some] at h
    obtain ⟨w1, hw1, w2, hw2, h⟩ := h
    cases h
    rfl
  split at h
  · simp only [Option.bind_eq_bind, Option.bind_eq_some] at h
    obtain ⟨w1, hw1, w2, hw2, h⟩ := h
    cases h
    rfl
  split at h
  · simp only [Option.bind_eq_bind, Option.bind_eq_some] at h
    obtain ⟨w1, hw1, w2, hw2, h⟩ := h
    cases h
    rfl
  · cases h
    rfl

/-- An ALU instruction with destination field 3 outside the
address-from-immediate source mode writes nothing: the execute phase
hands the soup through untouched. -/
lemma stepDecoded_soup_unchanged {cfg : Config} {ip : IP} {rule : Int}
    (hAlu : toUInt8 rule / 64 % 4 ≠ 3) (hSrc : toUInt8 rule / 16 % 4 ≠ 1)
    (hDest : toUInt8 rule % 4 = 3) {x y : Int} {s1 : Soup}
    (h : stepDecoded cfg ip rule = some (x, y, s1)) : s1 = ip.soup := by
  unfold stepDecoded at h
  dsimp only at h
  rw [if_neg hAlu] at h
  simp only [Option.bind_eq_bind, Option.bind_eq_some] at h
  obtain ⟨⟨v1, v2, a⟩, hsrc, h⟩ := h
  have ha : a = -1 := aluSources_srcAddr hSrc hsrc
  subst ha
  simp only [Option.bind_eq_some] at h
  obtain ⟨s2, hw, h⟩ := h
  rw [hDest] at hw
  unfold destWrite at hw
  norm_num at hw
  cases h
  exact hw.symm

/-- A completed `vm.Step` increments the step counter by exactly 1. -/
lemma step_increments {cfg : Config} {ip : IP} {d : Fin 4} {ip' : IP}
    (h : IP.Step cfg ip d = some ip') : ip'.steps = ip.steps + 1 := by
  unfold IP.Step at h
  cases hse : stepExec cfg ip with
  | none => rw [hse] at h; cases h
  | some t =>
    obtain ⟨x, y, s1⟩ := t
    rw [hse] at h
    cases h
    rfl

/-- A completed `stepAll` pass maps each live IP to a successor with
the same id and a step counter exactly one higher. -/
lemma stepAll_spec (cfg : Config) (dirs : Nat → Fin 4) (pop : List IPRec) :
    ∀ (i : Nat) (soup soup1 : Soup) (pop1 : List IPRec),
      stepAll cfg dirs i soup pop = some (soup1, pop1) →
      List.Forall₂ (fun a b => b.id = a.id ∧ b.steps = a.steps + 1) pop pop1 := by
  induction pop with
  | nil =>
    intro i soup s1 p1 h
    cases h
    exact List.Forall₂.nil
  | cons ip rest ihr =>
    intro i soup s1 p1 h
    unfold stepAll at h
    simp only [Option.bind_eq_bind, Option.bind_eq_some] at h
    obtain ⟨st, hst, ⟨s2, p2⟩, hrest, h⟩ := h
    cases h
    exact List.Forall₂.cons ⟨rfl, step_increments hst⟩ (ihr _ _ _ _ hrest)

end Lemmas

section Claims

/-- C2 counterexample: the claim quantifies over every `M > 0`, but at
`v = 2147483646`, `M = 2147483647` the `int32` addition inside `wrap`
overflows: the implemented `wrap` returns `-3`, which is neither the
mathematical modulo `((v mod M) + M) mod M` nor inside `[0, M)`. -/
theorem wrap_overflow_cex :
    (0 : Int) < 2147483647 ∧
    wrap 2147483646 2147483647 = -3 ∧
    ((2147483646 : Int) % 2147483647 + 2147483647) % 2147483647 = 2147483646 ∧
    wrap 2147483646 2147483647 ≠
      ((2147483646 : Int) % 2147483647 + 2147483647) % 2147483647 ∧
    ¬ (0 <= wrap 2147483646 2147483647) := by
  decide

/-- C2 amended: for every signed 32-bit `v` and every `M > 0` such that
the `int32` addition `(v mod M) + M` does not overflow (in particular
whenever `M <= 2^30`), the implemented `wrap(v, M)` equals the
mathematical modulo `((v mod M) + M) mod M` and lies in `[0, M)`. -/
theorem wrap_eq_mathematical_modulo (v M : Int) (h1 : 0 < M)
    (h2 : Int.tmod v M + M < 2147483648) :
    wrap v M = (v % M + M) % M ∧ 0 <= wrap v M ∧ wrap v M < M := by
  have he : wrap v M = v % M := wrap_eq_emod h1 h2
  have hm : (v % M + M) % M = v % M := by
    rw [show v % M + M = v % M + M * 1 by ring, Int.add_mul_emod_self_left,
      Int.emod_emod_of_dvd v (dvd_refl M)]
  rw [he, hm]
  exact ⟨rfl, Int.emod_nonneg v (by omega), Int.emod_lt_of_pos v h1⟩

/-- C2 witness: the amended modulo law at `v = -5`, `M = 7`. -/
theorem wrap_eq_mathematical_modulo_witness :
    wrap (-5) 7 = ((-5 : Int) % 7 + 7) % 7 ∧
    0 <= wrap (-5) 7 ∧ wrap (-5) 7 < 7 :=
  wrap_eq_mathematical_modulo (-5) 7 (by decide) (by decide)

/-- C1 counterexample: with `DIM_X = 2^31 - 1 > 0` and `DIM_Y = 1 > 0`
(a one-row soup of `2^31 - 1` zero bytes, cursor at the origin), the
step completes, yet the final wrap overflows in `int32` and the IP ends
at `x = -1`, outside `[0, DIM_X)`. -/
theorem step_coords_cex :
    0 < cfgHuge.dimX ∧ 0 < cfgHuge.dimY ∧
    (IP.Step cfgHuge ipHugeOrigin 3).map (fun t => (t.x, t.y)) =
      some (-1, 0) := by
  decide

/-- C1 amended: whenever both dimensions are positive and at most
`2^30` (so no `int32` overflow can occur inside `wrap`), a completed
`Step` leaves the coordinates inside `[0, DIM_X) × [0, DIM_Y)`, whether
or not a jump was taken. -/
theorem step_coords_in_range (cfg : Config) (ip : IP) (d : Fin 4) (ip' : IP)
    (h1 : 0 < cfg.dimX) (h2 : cfg.dimX <= 1073741824)
    (h3 : 0 < cfg.dimY) (h4 : cfg.dimY <= 1073741824)
    (h : IP.Step cfg ip d = some ip') :
    0 <= ip'.x ∧ ip'.x < cfg.dimX ∧ 0 <= ip'.y ∧ ip'.y < cfg.dimY := by
  unfold IP.Step at h
  cases hse : stepExec cfg ip with
  | none => rw [hse] at h; cases h
  | some t =>
    obtain ⟨x, y, s1⟩ := t
    rw [hse] at h
    cases h
    obtain ⟨hx0, hx1⟩ := wrap_bounds
      (if d.val = 0 then (x, wrap32 (y - 1))
        else if d.val = 1 then (x, wrap32 (y + 1))
        else if d.val = 2 then (wrap32 (x - 1), y)
        else (wrap32 (x + 1), y)).1 h1 h2
    obtain ⟨hy0, hy1⟩ := wrap_bounds
      (if d.val = 0 then (x, wrap32 (y - 1))
        else if d.val = 1 then (x, wrap32 (y + 1))
        else if d.val = 2 then (wrap32 (x - 1), y)
        else (wrap32 (x + 1), y)).2 h3 h4
    exact ⟨hx0, hx1, hy0, hy1⟩

/-- C1 witness: the in-range conclusion on the 3-by-3 torus. -/
theorem step_coords_in_range_witness :
    0 <= (⟨1, 0, 1, soupConst3⟩ : IP).x ∧
    (⟨1, 0, 1, soupConst3⟩ : IP).x < cfgSmall.dimX ∧
    0 <= (⟨1, 0, 1, soupConst3⟩ : IP).y ∧
    (⟨1, 0, 1, soupConst3⟩ : IP).y < cfgSmall.dimY :=
  step_coords_in_range cfgSmall ipCenter 0 ⟨1, 0, 1, soupConst3⟩
    (by decide) (by decide) (by decide) (by decide) (by rfl)

/-- C5 counterexample: the claim quantifies over every soup of positive
length and every cursor position, but on the one-row soup of
`2^31 - 1 > 0` zero bytes with the in-range cursor `(5, 0)` the very
first instruction fetch computes a negative index (the `int32` addition
inside `wrap` overflows) and `Step` panics: the model returns `none`. -/
theorem step_total_cex :
    0 < soupHuge.size ∧ 0 <= ipHugeFive.x ∧ ipHugeFive.x < cfgHuge.dimX ∧
    0 <= ipHugeFive.y ∧ ipHugeFive.y < cfgHuge.dimY ∧
    (IP.Step cfgHuge ipHugeFive 0).isSome = false := by
  decide

/-- C5 amended: `Step` is total for every cursor position and every
instruction byte, provided the dimensions are positive, at most `2^30`
each, their product fits `int32`, and the soup has at least
`DIM_X * DIM_Y` cells: every soup access stays in bounds and no error
can surface. -/
theorem step_total (cfg : Config) (ip : IP) (d : Fin 4)
    (h : ValidDims cfg ip.soup.size) : (IP.Step cfg ip d).isSome := by
  obtain ⟨x, y, s1, hse, _⟩ := stepExec_isSome h
  unfold IP.Step
  rw [hse]
  rfl

/-- C5 witness: totality on the 3-by-3 torus. -/
theorem step_total_witness : (IP.Step cfgSmall ipCenter 2).isSome :=
  step_total cfgSmall ipCenter 2 (by unfold ValidDims; decide)

/-- C3 counterexample: at the centre of the 3-by-3 torus with a
write-free instruction, the four possible values of the `rand.Intn(4)`
draw produce exactly the four von Neumann neighbours; in particular no
draw realises the diagonal Moore move to `(2, 2)`, so the walk is not a
uniform choice among the eight Moore offsets. -/
theorem walk_moore_cex :
    (List.finRange 4).map
        (fun d => (IP.Step cfgSmall ipCenter d).map (fun t => (t.x, t.y))) =
      [some (1, 0), some (1, 2), some (0, 1), some (2, 1)] ∧
    ¬ (some ((2 : Int), (2 : Int)) ∈ (List.finRange 4).map
        (fun d => (IP.Step cfgSmall ipCenter d).map (fun t => (t.x, t.y)))) := by
  exact ⟨by decide, by decide⟩

/-- C3 amended: every completed `Step` ends with an unconditional random
walk from the cursor produced by the execute phase (the jump target when
a jump was taken): the final position is one of the FOUR von Neumann
unit moves of that base, wrapped, and the four equiprobable draws map
one-to-one onto those four moves.  The step counter always increments
and the walk never touches the soup. -/
theorem walk_von_neumann (cfg : Config) (ip : IP) (d : Fin 4) (ip' : IP)
    (h : IP.Step cfg ip d = some ip') :
    ∃ x y s1, stepExec cfg ip = some (x, y, s1) ∧ ip'.soup = s1 ∧
      ip'.steps = ip.steps + 1 ∧
      (ip'.x, ip'.y) ∈
        [(wrap x cfg.dimX, wrap (wrap32 (y - 1)) cfg.dimY),
         (wrap x cfg.dimX, wrap (wrap32 (y + 1)) cfg.dimY),
         (wrap (wrap32 (x - 1)) cfg.dimX, wrap y cfg.dimY),
         (wrap (wrap32 (x + 1)) cfg.dimX, wrap y cfg.dimY)] ∧
      (ip'.x, ip'.y) =
        [(wrap x cfg.dimX, wrap (wrap32 (y - 1)) cfg.dimY),
         (wrap x cfg.dimX, wrap (wrap32 (y + 1)) cfg.dimY),
         (wrap (wrap32 (x - 1)) cfg.dimX, wrap y cfg.dimY),
         (wrap (wrap32 (x + 1)) cfg.dimX, wrap y cfg.dimY)].get
          ⟨d.val, d.isLt⟩ := by
  unfold IP.Step at h
  cases hse : stepExec cfg ip with
  | none => rw [hse] at h; cases h
  | some t =>
    obtain ⟨x, y, s1⟩ := t
    rw [hse] at h
    cases h
    refine ⟨x, y, s1, rfl, rfl, rfl, ?_, ?_⟩
    · obtain ⟨dv, hdv⟩ := d
      interval_cases dv <;> simp
    · obtain ⟨dv, hdv⟩ := d
      interval_cases dv <;> rfl

/-- C3 witness: the amended walk at the centre of the 3-by-3 torus with
draw 1 (the move one row down). -/
theorem walk_von_neumann_witness :
    ∃ x y s1, stepExec cfgSmall ipCenter = some (x, y, s1) ∧
      (⟨1, 2, 1, soupConst3⟩ : IP).soup = s1 ∧
      (⟨1, 2, 1, soupConst3⟩ : IP).steps = ipCenter.steps + 1 ∧
      ((⟨1, 2, 1, soupConst3⟩ : IP).x, (⟨1, 2, 1, soupConst3⟩ : IP).y) ∈
        [(wrap x cfgSmall.dimX, wrap (wrap32 (y - 1)) cfgSmall.dimY),
         (wrap x cfgSmall.dimX, wrap (wrap32 (y + 1)) cfgSmall.dimY),
         (wrap (wrap32 (x - 1)) cfgSmall.dimX, wrap y cfgSmall.dimY),
         (wrap (wrap32 (x + 1)) cfgSmall.dimX, wrap y cfgSmall.dimY)] ∧
      ((⟨1, 2, 1, soupConst3⟩ : IP).x, (⟨1, 2, 1, soupConst3⟩ : IP).y) =
        [(wrap x cfgSmall.dimX, wrap (wrap32 (y - 1)) cfgSmall.dimY),
         (wrap x cfgSmall.dimX, wrap (wrap32 (y + 1)) cfgSmall.dimY),
         (wrap (wrap32 (x - 1)) cfgSmall.dimX, wrap y cfgSmall.dimY),
         (wrap (wrap32 (x + 1)) cfgSmall.dimX, wrap y cfgSmall.dimY)].get
          ⟨(1 : Fin 4).val, (1 : Fin 4).isLt⟩ :=
  walk_von_neumann cfgSmall ipCenter 1 ⟨1, 2, 1, soupConst3⟩ (by rfl)

/-- C4 counterexample: in 8-bit relative mode on the 8-by-8 torus, base
`(0, 0)` and offset `0x10` resolve to linear index 8 — row 1, one row
below the base — while the spec formula (`fx = bx + sign_extend_8(o)`,
`fy = by`) gives index 0; the resolved address does move vertically. -/
theorem resolve8rel_cex :
    cfg8x8.useRel = true ∧ cfg8x8.use32 = false ∧
    resolveAddress cfg8x8 0 0 16 = 8 ∧
    resolveAddressSpec8Rel cfg8x8 0 0 16 = 0 ∧
    resolveAddress cfg8x8 0 0 16 ≠ resolveAddressSpec8Rel cfg8x8 0 0 16 ∧
    resolveAddress cfg8x8 0 0 16 / cfg8x8.dimX ≠ 0 := by
  decide

/-- C4 amended: in 8-bit relative mode the offset byte is split into
two signed NIBBLES: address resolution yields
`fx = bx + sign_extend_4(o & 0xF)` and
`fy = by + sign_extend_4((o >> 4) & 0xF)` (both then wrapped), each
nibble displacement lying in `[-8, 8)`; the mode is two-dimensional. -/
theorem resolve8rel_nibbles (cfg : Config) (baseX baseY offset : Int)
    (hRel : cfg.useRel = true) (h32 : cfg.use32 = false) :
    resolveAddress cfg baseX baseY offset =
      to1D cfg (wrap32 (baseX + sext4 (offset % 16)))
        (wrap32 (baseY + sext4 (offset % 256 / 16))) ∧
    -8 <= sext4 (offset % 16) ∧ sext4 (offset % 16) < 8 ∧
    -8 <= sext4 (offset % 256 / 16) ∧ sext4 (offset % 256 / 16) < 8 := by
  have hdx : toInt8 (toUInt8 offset * 16 % 256) / 16 = sext4 (offset % 16) := by
    unfold toInt8 toUInt8 sext4
    split <;> omega
  have hdy : toInt8 offset / 16 = sext4 (offset % 256 / 16) := by
    unfold toInt8 sext4
    split <;> omega
  refine ⟨?_, ?_, ?_, ?_, ?_⟩
  · unfold resolveAddress
    rw [hRel, h32]
    simp only [if_true, Bool.false_eq_true, if_false]
    rw [hdx, hdy]
  · unfold sext4; split <;> omega
  · unfold sext4; split <;> omega
  · unfold sext4; split <;> omega
  · unfold sext4; split <;> omega

/-- C4 witness: the nibble decomposition at base `(0, 0)` and offset
`-11` (byte `0xF5`: nibbles `5` and `-1`). -/
theorem resolve8rel_nibbles_witness :
    resolveAddress cfg8x8 0 0 (-11) =
      to1D cfg8x8 (wrap32 (0 + sext4 ((-11) % 16)))
        (wrap32 (0 + sext4 ((-11) % 256 / 16))) ∧
    -8 <= sext4 ((-11) % 16) ∧ sext4 ((-11) % 16) < 8 ∧
    -8 <= sext4 ((-11) % 256 / 16) ∧ sext4 ((-11) % 256 / 16) < 8 :=
  resolve8rel_nibbles cfg8x8 0 0 (-11) (by rfl) (by rfl)


/-- C9: for every ALU (non-jump) instruction whose source-type field is
not the address-from-immediate mode, a destination field of 3 discards
the computed result: a completed `Step` leaves the entire soup
unchanged (the fetch writes nothing). -/
theorem dest3_discards_result (cfg : Config) (ip : IP) (d : Fin 4) (ip' : IP)
    (r : Int) (hr : ip.soup.read (to1D cfg ip.x ip.y) = some r)
    (hAlu : toUInt8 r / 64 % 4 ≠ 3) (hSrc : toUInt8 r / 16 % 4 ≠ 1)
    (hDest : toUInt8 r % 4 = 3) (h : IP.Step cfg ip d = some ip') :
    ip'.soup = ip.soup := by
  unfold IP.Step at h
  cases hse : stepExec cfg ip with
  | none => rw [hse] at h; cases h
  | some t =>
    obtain ⟨x, y, s1⟩ := t
    rw [hse] at h
    cases h
    unfold stepExec at hse
    rw [hr] at hse
    simp only [Option.bind_eq_bind, Option.some_bind] at hse
    exact stepDecoded_soup_unchanged hAlu hSrc hDest hse

/-- C9 witness: the all-3 soup (rule byte 3 decodes to `NAND`,
vertical sources, destination field 3) is left untouched by a step. -/
theorem dest3_discards_result_witness :
    (⟨1, 0, 1, soupConst3⟩ : IP).soup = ipCenter.soup :=
  dest3_discards_result cfgSmall ipCenter 0 ⟨1, 0, 1, soupConst3⟩ 3
    (by decide) (by decide) (by decide) (by decide) (by rfl)


/-- C8: the step-once control operation runs under the paused flag
only: when paused it executes exactly one `vm.Step` on every live IP
(same ids, each step counter exactly one higher) and leaves the
supervisor paused; when not paused it executes no `vm.Step` and leaves
the state untouched. -/
theorem step_once_gated (cfg : Config) (dirs : Nat → Fin 4) (s s' : AppState)
    (h : AppState.Step cfg dirs s = some s') :
    (s.paused = false → s' = s) ∧
    (s.paused = true → s'.paused = true ∧
      List.Forall₂ (fun a b => b.id = a.id ∧ b.steps = a.steps + 1)
        s.population s'.population) := by
  unfold AppState.Step at h
  by_cases hp : s.paused = true
  · rw [if_pos hp] at h
    refine ⟨fun hf => absurd (hf ▸ hp) (by decide), fun _ => ?_⟩
    cases hall : stepAll cfg dirs 0 s.soup s.population with
    | none => rw [hall] at h; cases h
    | some t =>
      obtain ⟨s1, p1⟩ := t
      rw [hall] at h
      cases h
      exact ⟨hp, stepAll_spec cfg dirs s.population 0 s.soup s1 p1 hall⟩
  · rw [if_neg hp] at h
    cases h
    exact ⟨fun _ => rfl, fun ht => absurd ht hp⟩

/-- C8 witness: stepping the paused one-IP supervisor over the 2-by-2
torus increments that IP's counter from 5 to 6 and stays paused. -/
theorem step_once_gated_witness :
    (appSmall.paused = false → appSmallStepped = appSmall) ∧
    (appSmall.paused = true → appSmallStepped.paused = true ∧
      List.Forall₂ (fun a b => b.id = a.id ∧ b.steps = a.steps + 1)
        appSmall.population appSmallStepped.population) :=
  step_once_gated cfg2x2 (fun _ => 0) appSmall appSmallStepped (by rfl)

/-- C10: pause and resume are idempotent on the supervisor state
machine: `Pause` on a paused state and `Resume` on a running state are
the identity (so the stop channel is never closed twice and no second
join happens), repeated calls change nothing further, and the flag
transitions are exactly running-to-paused via `Pause` and
paused-to-running via `Resume`. -/
theorem pause_resume_idempotent (s t : AppState) (hs : s.paused = true)
    (ht : t.paused = false) :
    AppState.Pause s = s ∧ AppState.Resume t = t ∧
    AppState.Pause (AppState.Pause t) = AppState.Pause t ∧
    AppState.Resume (AppState.Resume s) = AppState.Resume s ∧
    (AppState.Pause t).paused = true ∧ (AppState.Resume s).paused = false := by
  unfold AppState.Pause AppState.Resume
  simp [hs, ht]

/-- C10 witness: the idempotence laws at the concrete paused and
running supervisor states. -/
theorem pause_resume_idempotent_witness :
    AppState.Pause appSmall = appSmall ∧
    AppState.Resume appRunning = appRunning ∧
    AppState.Pause (AppState.Pause appRunning) = AppState.Pause appRunning ∧
    AppState.Resume (AppState.Resume appSmall) = AppState.Resume appSmall ∧
    (AppState.Pause appRunning).paused = true ∧
    (AppState.Resume appSmall).paused = false :=
  pause_resume_idempotent appSmall appRunning (by rfl) (by rfl)

/-- C6: the snapshot round trip is NOT the identity: `saveSnapshot`
never sets the `NextIPID` field of the `SimulationState` literal (it
stays at Go's zero value 0) although the struct declares it and
`loadSnapshot` installs it, and `loadSnapshot` rebuilds each IP through
`vm.NewIP`, which discards the saved `Steps`.  At a state with
`next_ip_id = 1` and one IP with 5 steps, save-then-load yields
`next_ip_id = 0` and a step counter of 0. -/
theorem snapshot_roundtrip_fails :
    appSmall.nextIPID = 1 ∧ appSmall.population.map IPRec.steps = [5] ∧
    (saveSnapshot cfg2x2 appSmall).map
        (fun snap => ((loadSnapshot appSmall snap).nextIPID,
          (loadSnapshot appSmall snap).population.map IPRec.steps)) =
      some (0, [0]) := by
  decide

/-- C7 counterexample: loading a decoded snapshot whose 3-cell soup
cannot match the running 4-cell soup is not an error: the load
completes and installs the mismatched soup (and the snapshot's other
fields) wholesale. -/
theorem load_mismatch_cex :
    snapMismatch.soup.size = 3 ∧ appSmall.soup.size = 4 ∧
    (loadSnapshot appSmall snapMismatch).soup.size = 3 ∧
    (loadSnapshot appSmall snapMismatch).generation = snapMismatch.generation ∧
    (loadSnapshot appSmall snapMismatch).nextIPID = snapMismatch.nextIPID := by
  decide

/-- C7 amended: after a successful decode, `loadSnapshot` performs no
soup length check: even when the snapshot's soup length differs from
the running soup's, the load succeeds, installs the snapshot's soup
object, and rebuilds one IP per saved entry. -/
theorem load_installs_regardless_of_length (s : AppState)
    (snap : SimulationState) (hmis : snap.soup.size ≠ s.soup.size) :
    (loadSnapshot s snap).soup = snap.soup ∧
    (loadSnapshot s snap).nextIPID = snap.nextIPID ∧
    (loadSnapshot s snap).population.length = snap.ips.length := by
  unfold loadSnapshot
  exact ⟨rfl, rfl, List.length_map snap.ips _⟩

/-- C7 witness: the amended load behaviour at the concrete mismatched
pair. -/
theorem load_installs_regardless_of_length_witness :
    (loadSnapshot appSmall snapMismatch).soup = snapMismatch.soup ∧
    (loadSnapshot appSmall snapMismatch).nextIPID = snapMismatch.nextIPID ∧
    (loadSnapshot appSmall snapMismatch).population.length =
      snapMismatch.ips.length :=
  load_installs_regardless_of_length appSmall snapMismatch (by decide)


end Claims

end EvoSoup
